import Mathlib

/- Verification development for the podcast-bot repository (src/Podcast.py).

   The file gives a shallow embedding of the core of the program: the
   tracks/podcasts tables of the storage layer, the feed reconciler
   (Podcast.refresh and its per-item insert-or-update block), the downloader
   (Podcast.download), the tag writer (Podcast.update_metadata), the playlist
   generator (Podcast.dump_to_m3u) and the batch drivers on Database.

   Modelling conventions, each tied to the source:
   * SQL rows are records, a table is a list of rows; the composite primary
     key (gid, podcast) of the tracks table appears as the well-formedness
     predicate wfTable (at most one row per key).
   * In both UPDATE statements the source combines the two column filters
     with the Python `and` operator.  On two SQLAlchemy binary expressions
     `a and b` evaluates bool(a), which for a `column == literal` expression
     compares hashes of the operands and is False, so `a and b` yields `a`:
     the second conjunct is silently dropped.  The embedding therefore
     filters the refresh UPDATE by podcast id only (Podcast.py line 148) and
     the download UPDATE by gid only (Podcast.py line 172), which is the
     behaviour the program actually has at runtime.
   * subprocess.call for curl returns an exit status that the source never
     inspects; the embedding takes the transfer outcome as a function
     argument and, like the source, ignores it.
   * Python exceptions that escape (KeyError/bozo feeds, TypeError on a None
     comparison or a None regex subject, AttributeError on a None date) are
     modelled as an error value that freezes the remainder of a batch fold,
     since the source installs no exception handler anywhere.
   * re.sub is an external library; it enters the model as an opaque
     function argument reSub pattern replacement subject.
   * Dates: datetime values are year/month/day records compared
     lexicographically; comparing a missing date raises in Python, which the
     playlist model reproduces exactly (two or more rows + a missing date). -/

namespace PodcastBot

/-- A decimal digit as a character (used to mirror the str formatting of
podcast ids and date components done by "{}".format in the source). -/
def digitChar (d : Nat) : Char :=
  match d with
  | 0 => '0' | 1 => '1' | 2 => '2' | 3 => '3' | 4 => '4'
  | 5 => '5' | 6 => '6' | 7 => '7' | 8 => '8' | _ => '9'

/-- Fuel-driven decimal rendering of a natural number. -/
def natToStrAux : Nat → Nat → List Char → List Char
  | 0, _, acc => acc
  | fuel+1, n, acc =>
    if n < 10 then digitChar n :: acc
    else natToStrAux fuel (n / 10) (digitChar (n % 10) :: acc)

/-- Decimal rendering of a natural number, as produced by "{}".format(n). -/
def natToStr (n : Nat) : String := ⟨natToStrAux (n+1) n []⟩

/-- Characters after the last slash of a string: embeds the Python
expression gid.split("/")[-1] from Podcast.download (line 163). -/
def lastSegAux : List Char → List Char → List Char
  | [], acc => acc
  | c :: cs, acc => if c = '/' then lastSegAux cs [] else lastSegAux cs (acc ++ [c])

/-- String form of lastSegAux, i.e. s.split("/")[-1]. -/
def lastSegment (s : String) : String := ⟨lastSegAux s.data []⟩

/-- Characters before the first slash of a string: embeds the Python
expression t.split("/")[0] used on a link media type (line 136). -/
def firstSegAux : List Char → List Char
  | [] => []
  | c :: cs => if c = '/' then [] else c :: firstSegAux cs

/-- String form of firstSegAux, i.e. s.split("/")[0]. -/
def firstSegment (s : String) : String := ⟨firstSegAux s.data⟩

/-- A calendar date, standing for the datetime values the source stores in
the published column. -/
structure PDate where
  year : Nat
  month : Nat
  day : Nat
deriving DecidableEq, Repr

/-- Lexicographic comparison of dates, as datetime comparison orders them. -/
def pdateLe (a b : PDate) : Bool :=
  if a.year ≠ b.year then a.year < b.year
  else if a.month ≠ b.month then a.month < b.month
  else a.day ≤ b.day

/-- One row of the tracks table (Podcast.py lines 29-38): composite primary
key (gid, podcast); track_url and track_file are nullable, published is
nullable because neither date key may be present in a feed item. -/
structure Track where
  gid : String
  podcast : Nat
  title : String
  description : String
  published : Option PDate
  track_url : Option String
  track_file : Option String
deriving DecidableEq, Repr

/-- The tracks table. -/
abbrev TrackTable := List Track

/-- One row of the podcasts table (lines 23-28); name and author are null
until the first refresh fills them in. -/
structure CastRow where
  id : Nat
  url : String
  name : Option String
  author : Option String
deriving DecidableEq, Repr

/-- The database: the podcasts table and the tracks table. -/
structure DB where
  casts : List CastRow
  tracks : TrackTable
deriving DecidableEq, Repr

/-- The fields dictionary built for one feed item (lines 126-138), after gid
and podcast are removed: title and description are always present, published
and track_url only when the feed provides them. -/
structure Fields where
  title : String
  description : String
  published : Option PDate
  track_url : Option String
deriving DecidableEq, Repr

/-- Effect of UPDATE tracks SET **fields on one row: keys absent from the
dictionary leave the column unchanged, present keys overwrite it; gid,
podcast and track_file are never among the update values (lines 143-147). -/
def applyFieldsUpdate (f : Fields) (t : Track) : Track :=
  { t with
    title := f.title
    description := f.description
    published := match f.published with
      | some d => some d
      | none => t.published
    track_url := match f.track_url with
      | some u => some u
      | none => t.track_url }

/-- The composite-key test for a tracks row. -/
def keyMatch (pid : Nat) (g : String) (t : Track) : Bool :=
  t.podcast == pid && t.gid == g

/-- Number of rows carrying a given (podcast, gid) key. -/
def cnt (tbl : TrackTable) (pid : Nat) (g : String) : Nat :=
  (tbl.filter (keyMatch pid g)).length

/-- Well-formedness of the tracks table: the composite primary key
(gid, podcast) declared on line 37 admits at most one row per key. -/
def wfTable (tbl : TrackTable) : Prop :=
  ∀ pid g, cnt tbl pid g ≤ 1

/-- The row stored under a given key, mirroring a keyed SELECT. -/
def lookupTrack (tbl : TrackTable) (pid : Nat) (g : String) : Option Track :=
  tbl.find? (keyMatch pid g)

/-- All rows of one podcast: SELECT * FROM tracks WHERE podcast == id
(get_tracks, lines 183-187). -/
def tracksOf (tbl : TrackTable) (pid : Nat) : TrackTable :=
  tbl.filter (fun t => t.podcast == pid)

/-- The stored gid set of one podcast: the existing_identifier_query of
refresh (lines 116-122). -/
def gidsOf (tbl : TrackTable) (pid : Nat) : List String :=
  (tracksOf tbl pid).map (fun t => t.gid)

/-- The podcast row with a given id, mirroring a keyed SELECT on casts. -/
def findCast (d : DB) (i : Nat) : Option CastRow :=
  d.casts.find? (fun c => c.id == i)

/-- A freshly inserted tracks row (lines 152-156): all dictionary fields,
track_file NULL by column default. -/
def newTrackRow (pid : Nat) (g : String) (f : Fields) : Track :=
  { gid := g, podcast := pid, title := f.title, description := f.description,
    published := f.published, track_url := f.track_url, track_file := none }

/-- The per-row effect of the executed UPDATE of refresh: its WHERE clause
collapsed to podcast == id (see upsertEpisode below), so a row of the
podcast takes the new field values and every other row is untouched. -/
def updFn (pid : Nat) (f : Fields) (t : Track) : Track :=
  if t.podcast == pid then applyFieldsUpdate f t else t

/-- The insert-or-update block of refresh for one item (lines 141-157),
taken as the storage operation upsertEpisode with the existence test made
against the current table.  When the key exists the source builds
UPDATE ... WHERE (tracks.podcast == id  and  tracks.gid == gid); the Python
`and` of the two SQLAlchemy expressions yields the first operand (bool of a
column == literal comparison is False), so the executed statement filters by
podcast only and rewrites every row of the podcast. -/
def upsertEpisode (tbl : TrackTable) (pid : Nat) (g : String) (f : Fields) : TrackTable :=
  if (gidsOf tbl pid).contains g then
    tbl.map (updFn pid f)
  else
    tbl ++ [newTrackRow pid g f]

/-- One link entry of a feed item: both the type and href keys may be
absent. -/
structure FeedLink where
  type : Option String
  href : Option String
deriving DecidableEq, Repr

/-- One feed item as the reconciler reads it (lines 124-138). -/
structure FeedItem where
  id : String
  title : String
  description : String
  published_parsed : Option PDate
  date_parsed : Option PDate
  links : List FeedLink
deriving DecidableEq, Repr

/-- Channel metadata of a parsed feed. -/
structure FeedChannel where
  title : String
  author : String
deriving DecidableEq, Repr

/-- A successfully parsed feed document. -/
structure FeedData where
  channel : FeedChannel
  items : List FeedItem
deriving DecidableEq, Repr

/-- The link scan of refresh (lines 135-138): take the href of the first
link that has a type key, whose type before the first slash is audio, and
that has an href key; links failing any of the three tests are passed over
and the scan continues. -/
def findAudioUrl : List FeedLink → Option String
  | [] => none
  | l :: ls =>
    if (match l.type with
        | some ty => firstSegment ty == "audio"
        | none => false) && l.href.isSome
    then l.href
    else findAudioUrl ls

/-- Modelled from the spec words for claim C7 only, to be compared with
findAudioUrl: the href of the first link whose declared media type has
primary component audio, with no requirement that the link carry an href. -/
def specFirstAudioHref (ls : List FeedLink) : Option String :=
  match ls.find? (fun l => match l.type with
      | some ty => firstSegment ty == "audio"
      | none => false) with
  | some l => l.href
  | none => none

/-- The amended selection function: the href of the first link that both
declares an audio media type and carries an href (this is what the source
computes; stated via find? so the amended claim is not a restatement of the
recursion in findAudioUrl). -/
def firstAudioHrefLink (ls : List FeedLink) : Option String :=
  match ls.find? (fun l => (match l.type with
      | some ty => firstSegment ty == "audio"
      | none => false) && l.href.isSome) with
  | some l => l.href
  | none => none

/-- The published field of one item (lines 131-134): the primary
published_parsed key, else the date_parsed key, else absent. -/
def pubOf (item : FeedItem) : Option PDate :=
  match item.published_parsed with
  | some d => some d
  | none => item.date_parsed

/-- The fields dictionary of one item after gid and podcast are removed. -/
def fieldsOf (item : FeedItem) : Fields :=
  { title := item.title, description := item.description,
    published := pubOf item, track_url := findAudioUrl item.links }

/-- One iteration of the item loop of refresh (lines 124-157), against the
gid snapshot loaded before the loop; the update branch carries the collapsed
WHERE clause described at upsertEpisode. -/
def refreshStep (pid : Nat) (existing : List String) (tbl : TrackTable) (item : FeedItem) : TrackTable :=
  if existing.contains item.id then
    tbl.map (updFn pid (fieldsOf item))
  else
    tbl ++ [newTrackRow pid item.id (fieldsOf item)]

/-- The whole item loop of refresh: the gid set is read once from the table
as it stands before the loop (lines 116-122), then every feed item is
processed in document order. -/
def refreshPodcastTracks (tbl : TrackTable) (pid : Nat) (items : List FeedItem) : TrackTable :=
  items.foldl (refreshStep pid (gidsOf tbl pid)) tbl

/-- The per-row effect of the set_meta_update statement of refresh (lines
107-115): the row of the refreshed podcast takes the channel title and
author, other rows are untouched. -/
def castUpd (c : CastRow) (data : FeedData) (r : CastRow) : CastRow :=
  if r.id == c.id then
    { r with name := some data.channel.title, author := some data.channel.author }
  else r

/-- Podcast.refresh on a successfully parsed feed (lines 102-157): store the
channel title and author on the podcast row, then run the item loop. -/
def refreshPodcast (d : DB) (c : CastRow) (data : FeedData) : DB :=
  { casts := d.casts.map (castUpd c data),
    tracks := refreshPodcastTracks d.tracks c.id data.items }

/-- One step of Database.refresh (lines 61-63): the feed oracle returns none
when fetching or parsing the feed at this url fails (feedparser bozo result,
KeyError on the channel keys); the raised exception propagates, so once the
error field is set every later step is a no-op. -/
def refreshBatchStep (feeds : String → Option FeedData) (st : DB × Option String) (c : CastRow) : DB × Option String :=
  match st.2 with
  | some _ => st
  | none =>
    match feeds c.url with
    | none => (st.1, some "FeedFetchError")
    | some data => (refreshPodcast st.1 c data, none)

/-- Database.refresh over all podcasts: the list of podcast rows is
materialised first (Database.list) and then each is refreshed in order with
no exception handler around the loop body. -/
def Database_refresh (feeds : String → Option FeedData) (d : DB) : DB × Option String :=
  d.casts.foldl (refreshBatchStep feeds) (d, none)

/-- The local file name built by Podcast.download (lines 163-164):
"{}/cast{}-{}.mp3".format(directory, id, gid.split("/")[-1]). -/
def downloadFileName (dir : String) (pid : Nat) (gid : String) : String :=
  dir ++ "/cast" ++ natToStr pid ++ "-" ++ lastSegment gid ++ ".mp3"

/-- Outcome of Podcast.download: the table after the run, the gids for which
a transfer was launched, and the first escaped exception if any. -/
structure DownloadResult where
  table : TrackTable
  attempts : List String
  err : Option String
deriving Repr

/-- The per-row effect of the executed UPDATE of download: its WHERE clause
collapsed to gid == track.gid (see downloadStep below), so every row with
this gid in any podcast receives the file name. -/
def setFileFn (g : String) (fn : String) (r : Track) : Track :=
  if r.gid == g then { r with track_file := some fn } else r

/-- One iteration of the download loop (lines 161-177).  Rows that already
have a track_file are skipped.  A null track_url reaches subprocess.call as
None and raises TypeError, aborting the loop.  Otherwise curl runs and its
exit status is discarded, after which the UPDATE executes unconditionally;
its WHERE clause collapsed to gid == track.gid (the Python `and` again keeps
only the first operand, line 172), so every row with this gid in any podcast
receives the file name. -/
def downloadStep (fetch : String → Bool) (dir : String) (pid : Nat)
    (st : DownloadResult) (t : Track) : DownloadResult :=
  match st.err with
  | some _ => st
  | none =>
    match t.track_file with
    | some _ => st
    | none =>
      match t.track_url with
      | none => { st with err := some "TypeError: subprocess argument is None" }
      | some url =>
        let fn := downloadFileName dir pid t.gid
        let _ret := fetch url
        { table := st.table.map (setFileFn t.gid fn),
          attempts := st.attempts ++ [t.gid],
          err := none }

/-- Podcast.download: iterate over the rows of this podcast as selected
before the loop, threading the table through the per-row step. -/
def downloadPodcast (fetch : String → Bool) (dir : String) (pid : Nat) (tbl : TrackTable) : DownloadResult :=
  (tracksOf tbl pid).foldl (downloadStep fetch dir pid) ⟨tbl, [], none⟩

/-- The tag fields written by Podcast.update_metadata (lines 215-220). -/
structure TagSet where
  album : String
  artist : String
  genre : String
  title : String
  date : String
deriving DecidableEq, Repr

/-- The file the tag writer operates on (lines 194-197): the override passed
right after a download, else the track_file column. -/
def effFile (t : Track) (file_override : Option String) : Option String :=
  match file_override with
  | some f => some f
  | none => t.track_file

/-- Podcast.update_metadata for one track (lines 189-222).  No file means
nothing happens.  EasyID3 may fail to open the file (openOk oracle).  After
a successful open the tag values are assembled; the date tag dereferences
track.published with .year/.month/.day (line 220), which raises
AttributeError when published is null — before track_meta.save() runs, so an
ok (some _) result is the only case in which tags reach the file.  The
function never touches the tracks table. -/
def update_metadata_track (openOk : String → Bool) (podName podAuthor : String)
    (t : Track) (file_override : Option String) : Except String (Option (String × TagSet)) :=
  match effFile t file_override with
  | none => Except.ok none
  | some f =>
    if openOk f then
      match t.published with
      | none => Except.error "AttributeError: NoneType has no attribute year"
      | some d =>
        Except.ok (some (f,
          { album := podName, artist := podAuthor, genre := "Podcast",
            title := t.title,
            date := natToStr d.year ++ "-" ++ natToStr d.month ++ "-" ++ natToStr d.day }))
    else Except.error "ID3NoHeaderError"

/-- A concrete downloaded episode carrying a publish date (used as the
concrete input of a witness below). -/
def c8Track : Track :=
  { gid := "g", podcast := 1, title := "T", description := "D",
    published := some ⟨2020, 3, 4⟩, track_url := none, track_file := some "/a.mp3" }

/-- Sort relation of dump_to_m3u: sorted(key = published, reverse = True) is
a stable descending sort on the published date; the comparison of a missing
date never executes in the model because such lists are routed to the
TypeError case first, exactly as in Python. -/
def trackSortRel (a b : Track) : Bool :=
  match a.published, b.published with
  | some x, some y => pdateLe y x
  | _, _ => true

/-- The text appended for one track of the playlist loop (lines 232-245):
rows with a null track_file are skipped; otherwise the optional extended
info line, the (possibly re.sub-rewritten) path and the spacing. -/
def m3uStep (reSub : String → String → String → String)
    (extm3u : Bool) (path_subst : Option (String × String))
    (out : String) (t : Track) : String :=
  match t.track_file with
  | none => out
  | some tf0 =>
    let tf := match path_subst with
      | some pr => reSub pr.1 pr.2 tf0
      | none => tf0
    if extm3u then out ++ "#EXTINF:-1, " ++ t.title ++ "\n" ++ tf ++ "\n\n"
    else out ++ tf ++ "\n"

/-- Podcast.dump_to_m3u at the default limit None (lines 224-245), returning
the written file content.  Python sorted() raises TypeError as soon as a
comparison touches a None key; with two or more rows every row is compared
at least once, so the call raises exactly when the list has at least two
rows and some published is null.  Otherwise: optional header, then per
downloaded row the extended-info line and the (possibly substituted) path.
reSub stands for re.sub of the standard library. -/
def dump_to_m3u (reSub : String → String → String → String)
    (tracks : List Track) (extm3u : Bool) (path_subst : Option (String × String)) :
    Except String String :=
  if decide (2 ≤ tracks.length) && tracks.any (fun t => t.published.isNone) then
    Except.error "TypeError: comparison of NoneType is not supported"
  else
    Except.ok ((tracks.mergeSort trackSortRel).foldl (m3uStep reSub extm3u path_subst)
      (if extm3u then "#EXTM3U\n\n" else ""))

/-- The character class pattern of the first re.sub of generate_playlists
(line 85), built without quote literals: the regex class of the two quote
characters. -/
def quoteClassPattern : String := ⟨['[', Char.ofNat 39, Char.ofNat 34, ']']⟩

/-- One step of the playlist loop of Database.generate_playlists (lines
84-89).  re.sub is called on cast.name; a podcast added but never refreshed
has name NULL, and re.sub with a None subject raises TypeError, which
escapes the loop.  Otherwise the name is sanitised, stripped, and the
podcast is dumped to directory/name.m3u in extended format; a TypeError
escaping dump_to_m3u likewise aborts the loop. -/
def gpStep (reSub : String → String → String → String) (d : DB) (dir : String)
    (path_subst : Option (String × String))
    (st : List (String × String) × Option String) (c : CastRow) :
    List (String × String) × Option String :=
  match st.2 with
  | some _ => st
  | none =>
    match c.name with
    | none => (st.1, some "TypeError: re.sub expected string, got None")
    | some nm =>
      let s1 := reSub quoteClassPattern "" nm
      let s2 := reSub "[^ a-zA-Z0-9]+" " " s1
      let fn := s2.trim
      let path := dir ++ "/" ++ fn ++ ".m3u"
      match dump_to_m3u reSub (tracksOf d.tracks c.id) true path_subst with
      | Except.ok content => (st.1 ++ [(path, content)], none)
      | Except.error e => (st.1, some e)

/-- The playlist loop of Database.generate_playlists over the materialised
podcast list (the optional refresh/download/metadata pre-steps of lines
76-83 are not taken here: the claims under study enter the loop directly). -/
def generate_playlists_loop (reSub : String → String → String → String)
    (d : DB) (dir : String) (path_subst : Option (String × String)) :
    List (String × String) × Option String :=
  d.casts.foldl (gpStep reSub d dir path_subst) ([], none)

/- ------------------------------------------------------------------ -/
/- Helper lemmas                                                       -/
/- ------------------------------------------------------------------ -/

/-- A list holding two distinct members has length at least two. -/
theorem two_mem_le_length {α : Type} {l : List α} {a b : α}
    (ha : a ∈ l) (hb : b ∈ l) (hne : a ≠ b) : 2 ≤ l.length := by
  cases l with
  | nil => cases ha
  | cons x t =>
    cases t with
    | nil =>
      simp only [List.mem_singleton] at ha hb
      exact absurd (ha.trans hb.symm) hne
    | cons y t2 => simp only [List.length_cons]; omega

/-- find? commutes with a map whose function does not change the
predicate. -/
theorem find?_map_pres {α : Type} (u : α → α) (p : α → Bool)
    (h : ∀ t, p (u t) = p t) (l : List α) :
    (l.map u).find? p = (l.find? p).map u := by
  rw [List.find?_map]
  have hpu : (p ∘ u) = p := funext h
  rw [hpu]

/-- filter commutes with a map whose function does not change the
predicate. -/
theorem filter_map_pres {α : Type} (u : α → α) (p : α → Bool)
    (h : ∀ t, p (u t) = p t) (l : List α) :
    (l.map u).filter p = (l.filter p).map u := by
  induction l with
  | nil => rfl
  | cons a l ih =>
    simp only [List.map_cons, List.filter_cons, h a]
    cases hp : p a <;> simp [ih]

/-- updFn keeps the composite key of a row. -/
theorem keyMatch_updFn (pid2 : Nat) (f : Fields) (pid : Nat) (g : String) (t : Track) :
    keyMatch pid g (updFn pid2 f t) = keyMatch pid g t := by
  unfold updFn applyFieldsUpdate keyMatch
  split <;> rfl

/-- updFn keeps the podcast column of a row. -/
theorem podcast_updFn (pid2 : Nat) (f : Fields) (t : Track) :
    (updFn pid2 f t).podcast = t.podcast := by
  unfold updFn applyFieldsUpdate
  split <;> rfl

/-- updFn never touches the track_file column (the update values of refresh
contain title, description and optionally published and track_url only). -/
theorem track_file_updFn (pid2 : Nat) (f : Fields) (t : Track) :
    (updFn pid2 f t).track_file = t.track_file := by
  unfold updFn applyFieldsUpdate
  split <;> rfl

/-- setFileFn keeps the composite key of a row. -/
theorem keyMatch_setFileFn (g2 fn : String) (pid : Nat) (g : String) (t : Track) :
    keyMatch pid g (setFileFn g2 fn t) = keyMatch pid g t := by
  unfold setFileFn keyMatch
  split <;> rfl

/-- The key count is unchanged by the collapsed refresh UPDATE. -/
theorem cnt_map_updFn (tbl : TrackTable) (pid2 : Nat) (f : Fields) (pid : Nat) (g : String) :
    cnt (tbl.map (updFn pid2 f)) pid g = cnt tbl pid g := by
  unfold cnt
  rw [filter_map_pres (updFn pid2 f) (keyMatch pid g) (keyMatch_updFn pid2 f pid g)]
  simp

/-- A positive key count is the existence of a row with that key. -/
theorem cnt_pos_iff (tbl : TrackTable) (pid : Nat) (g : String) :
    0 < cnt tbl pid g ↔ ∃ t ∈ tbl, keyMatch pid g t = true := by
  unfold cnt
  rw [List.length_pos_iff_exists_mem]
  constructor
  · rintro ⟨t, ht⟩
    exact ⟨t, (List.mem_filter.1 ht).1, (List.mem_filter.1 ht).2⟩
  · rintro ⟨t, ht, hk⟩
    exact ⟨t, List.mem_filter.2 ⟨ht, hk⟩⟩

/-- Boolean list containment is membership, for lawful equality. -/
theorem contains_iff_mem {α : Type} [BEq α] [LawfulBEq α] (l : List α) (a : α) :
    l.contains a = true ↔ a ∈ l := by
  simp [List.contains, List.elem_iff]

/-- Membership in the stored gid set of a podcast is a positive key count:
ties the existence test of refresh (against existing_gids) to the primary
key of the tracks table. -/
theorem contains_gidsOf_iff (tbl : TrackTable) (pid : Nat) (g : String) :
    (gidsOf tbl pid).contains g = true ↔ 0 < cnt tbl pid g := by
  rw [cnt_pos_iff, contains_iff_mem]
  unfold gidsOf tracksOf
  constructor
  · intro hg
    obtain ⟨t, htf, rfl⟩ := List.mem_map.1 hg
    have hm := List.mem_filter.1 htf
    exact ⟨t, hm.1, by unfold keyMatch; simp [hm.2]⟩
  · rintro ⟨t, ht, hk⟩
    unfold keyMatch at hk
    rw [Bool.and_eq_true] at hk
    exact List.mem_map.2 ⟨t, List.mem_filter.2 ⟨ht, hk.1⟩, beq_iff_eq.1 hk.2⟩

/-- A key absent from an upsert call keeps count zero before the call. -/
theorem cnt_eq_zero_of_not_contains (tbl : TrackTable) (pid : Nat) (g : String)
    (h : (gidsOf tbl pid).contains g = false) : cnt tbl pid g = 0 := by
  by_contra hne
  have : 0 < cnt tbl pid g := Nat.pos_of_ne_zero hne
  rw [← contains_gidsOf_iff] at this
  rw [h] at this
  cases this

/-- The new row inserted for a key matches that key. -/
theorem keyMatch_newTrackRow (pid : Nat) (g : String) (f : Fields) :
    keyMatch pid g (newTrackRow pid g f) = true := by
  unfold keyMatch newTrackRow
  simp

/-- upsertEpisode leaves exactly one row under the upserted key. -/
theorem cnt_upsert_self (tbl : TrackTable) (pid : Nat) (g : String) (f : Fields)
    (hwf : wfTable tbl) : cnt (upsertEpisode tbl pid g f) pid g = 1 := by
  unfold upsertEpisode
  split
  · next h =>
    rw [cnt_map_updFn]
    have h1 : 0 < cnt tbl pid g := (contains_gidsOf_iff tbl pid g).1 h
    have h2 : cnt tbl pid g ≤ 1 := hwf pid g
    omega
  · next h =>
    have h0 : cnt tbl pid g = 0 :=
      cnt_eq_zero_of_not_contains tbl pid g (Bool.eq_false_iff.2 h)
    unfold cnt at h0 ⊢
    rw [List.filter_append, List.length_append, h0]
    simp [keyMatch_newTrackRow]

/-- upsertEpisode preserves well-formedness of the tracks table. -/
theorem wf_upsert (tbl : TrackTable) (pid : Nat) (g : String) (f : Fields)
    (hwf : wfTable tbl) : wfTable (upsertEpisode tbl pid g f) := by
  intro pid2 g2
  unfold upsertEpisode
  split
  · rw [cnt_map_updFn]; exact hwf pid2 g2
  · next h =>
    unfold cnt
    rw [List.filter_append, List.length_append]
    by_cases hk : keyMatch pid2 g2 (newTrackRow pid g f) = true
    · have hpg : pid = pid2 ∧ g = g2 := by
        unfold keyMatch newTrackRow at hk
        simp at hk
        exact hk
      obtain ⟨rfl, rfl⟩ := hpg
      have h0 : cnt tbl pid g = 0 :=
        cnt_eq_zero_of_not_contains tbl pid g (Bool.eq_false_iff.2 h)
      unfold cnt at h0
      simp [h0, hk]
    · have : List.filter (keyMatch pid2 g2) [newTrackRow pid g f] = [] := by
        simp [List.filter, Bool.eq_false_iff.2 hk]
      rw [this]
      simpa using hwf pid2 g2

/-- After the update branch of upsertEpisode, every row under the key
carries the given field values (present dictionary keys overwrite the
columns). -/
theorem upsert_key_fields (tbl : TrackTable) (pid : Nat) (g : String) (f : Fields)
    (h : (gidsOf tbl pid).contains g = true) :
    ∀ t ∈ upsertEpisode tbl pid g f, keyMatch pid g t = true →
      t.title = f.title ∧ t.description = f.description ∧
      (∀ d, f.published = some d → t.published = some d) ∧
      (∀ u, f.track_url = some u → t.track_url = some u) := by
  unfold upsertEpisode
  rw [if_pos h]
  intro t ht hkey
  obtain ⟨t0, _ht0, rfl⟩ := List.mem_map.1 ht
  by_cases hp : (t0.podcast == pid) = true
  · unfold updFn applyFieldsUpdate
    rw [if_pos hp]
    refine ⟨rfl, rfl, ?_, ?_⟩
    · intro d hd; simp [hd]
    · intro u hu; simp [hu]
  · exfalso
    unfold updFn at hkey
    rw [if_neg hp] at hkey
    unfold keyMatch at hkey
    rw [Bool.and_eq_true] at hkey
    exact hp hkey.1

/-- The upserted key is present after any upsertEpisode call. -/
theorem contains_after_upsert (tbl : TrackTable) (pid : Nat) (g : String) (f : Fields)
    (hwf : wfTable tbl) :
    (gidsOf (upsertEpisode tbl pid g f) pid).contains g = true := by
  rw [contains_gidsOf_iff, cnt_upsert_self tbl pid g f hwf]
  omega

/-- The update branch of upsertEpisode keeps the table length. -/
theorem length_upsert_of_contains (tbl : TrackTable) (pid : Nat) (g : String) (f : Fields)
    (h : (gidsOf tbl pid).contains g = true) :
    (upsertEpisode tbl pid g f).length = tbl.length := by
  unfold upsertEpisode
  rw [if_pos h]
  simp

/- ------------------------------------------------------------------ -/
/- Claim C1                                                            -/
/- ------------------------------------------------------------------ -/

/-- Claim C1: upsertEpisode is idempotent under a fixed (podcast_id, guid):
from any well-formed stored state, calling it twice with identical fields
leaves exactly one row under that key, that row carries the given field
values, and the second call adds no row; calling it again with changed
fields still leaves exactly one row under the key, now carrying the new
field values, without creating a duplicate row.  (Field values provided
optionally — published, track_url — are asserted when present, matching the
partial update dictionary of the source.) -/
theorem upsertEpisode_idempotent (tbl : TrackTable) (pid : Nat) (g : String) (f f2 : Fields)
    (hwf : wfTable tbl) :
    cnt (upsertEpisode (upsertEpisode tbl pid g f) pid g f) pid g = 1 ∧
    (∀ t ∈ upsertEpisode (upsertEpisode tbl pid g f) pid g f, keyMatch pid g t = true →
      t.title = f.title ∧ t.description = f.description ∧
      (∀ d, f.published = some d → t.published = some d) ∧
      (∀ u, f.track_url = some u → t.track_url = some u)) ∧
    (upsertEpisode (upsertEpisode tbl pid g f) pid g f).length
      = (upsertEpisode tbl pid g f).length ∧
    cnt (upsertEpisode (upsertEpisode (upsertEpisode tbl pid g f) pid g f) pid g f2) pid g = 1 ∧
    (∀ t ∈ upsertEpisode (upsertEpisode (upsertEpisode tbl pid g f) pid g f) pid g f2,
      keyMatch pid g t = true →
      t.title = f2.title ∧ t.description = f2.description ∧
      (∀ d, f2.published = some d → t.published = some d) ∧
      (∀ u, f2.track_url = some u → t.track_url = some u)) ∧
    (upsertEpisode (upsertEpisode (upsertEpisode tbl pid g f) pid g f) pid g f2).length
      = (upsertEpisode (upsertEpisode tbl pid g f) pid g f).length := by
  have hwf1 : wfTable (upsertEpisode tbl pid g f) := wf_upsert tbl pid g f hwf
  have hwf2 : wfTable (upsertEpisode (upsertEpisode tbl pid g f) pid g f) :=
    wf_upsert _ pid g f hwf1
  have hc1 : (gidsOf (upsertEpisode tbl pid g f) pid).contains g = true :=
    contains_after_upsert tbl pid g f hwf
  have hc2 : (gidsOf (upsertEpisode (upsertEpisode tbl pid g f) pid g f) pid).contains g = true :=
    contains_after_upsert _ pid g f hwf1
  exact ⟨cnt_upsert_self _ pid g f hwf1,
         upsert_key_fields _ pid g f hc1,
         length_upsert_of_contains _ pid g f hc1,
         cnt_upsert_self _ pid g f2 hwf2,
         upsert_key_fields _ pid g f2 hc2,
         length_upsert_of_contains _ pid g f2 hc2⟩

/-- Witness for C1 at a concrete input: an empty table, key (1, g), fields
(a, b) twice and then changed fields (c, d, a date, a url). -/
theorem upsertEpisode_idempotent_witness :
    cnt (upsertEpisode (upsertEpisode ([] : TrackTable) 1 "g"
          { title := "a", description := "b", published := none, track_url := none }) 1 "g"
          { title := "a", description := "b", published := none, track_url := none }) 1 "g" = 1 ∧
    cnt (upsertEpisode (upsertEpisode (upsertEpisode ([] : TrackTable) 1 "g"
          { title := "a", description := "b", published := none, track_url := none }) 1 "g"
          { title := "a", description := "b", published := none, track_url := none }) 1 "g"
          { title := "c", description := "d", published := some ⟨2020,1,2⟩, track_url := some "u" }) 1 "g" = 1 :=
  ⟨(upsertEpisode_idempotent [] 1 "g"
      { title := "a", description := "b", published := none, track_url := none }
      { title := "c", description := "d", published := some ⟨2020,1,2⟩, track_url := some "u" }
      (by intro p G; simp [cnt])).1,
   (upsertEpisode_idempotent [] 1 "g"
      { title := "a", description := "b", published := none, track_url := none }
      { title := "c", description := "d", published := some ⟨2020,1,2⟩, track_url := some "u" }
      (by intro p G; simp [cnt])).2.2.2.1⟩

/- ------------------------------------------------------------------ -/
/- Claim C2                                                            -/
/- ------------------------------------------------------------------ -/

/-- Claim C2 (refuted by the executed code — the claim states the evident
intent, the code drops the gid conjunct): with podcast 1 holding episodes
g1 and g2, upserting (1, g1) with title T, description D rewrites the g2
row as well, because the UPDATE of refresh runs with WHERE podcast == 1
only (the Python `and` of the two SQLAlchemy column comparisons evaluates
to its first operand).  The claim says every other row is unchanged; here
the sibling row g2 loses its title t2 and description d2. -/
theorem upsert_update_rewrites_sibling_row :
    upsertEpisode
      [{ gid := "g1", podcast := 1, title := "t1", description := "d1",
         published := none, track_url := none, track_file := none },
       { gid := "g2", podcast := 1, title := "t2", description := "d2",
         published := none, track_url := none, track_file := none }]
      1 "g1" { title := "T", description := "D", published := none, track_url := none }
    = [{ gid := "g1", podcast := 1, title := "T", description := "D",
         published := none, track_url := none, track_file := none },
       { gid := "g2", podcast := 1, title := "T", description := "D",
         published := none, track_url := none, track_file := none }] := by
  decide

/- ------------------------------------------------------------------ -/
/- Download loop lemmas                                                -/
/- ------------------------------------------------------------------ -/

/-- If a filter of a list is the singleton of a row, find? returns it. -/
theorem find?_of_filter_singleton {α : Type} (p : α → Bool) (l : List α) (a : α)
    (h : l.filter p = [a]) : l.find? p = some a := by
  induction l with
  | nil => simp at h
  | cons x l ih =>
    rw [List.filter_cons] at h
    cases hp : p x with
    | true =>
      rw [if_pos (by rw [hp])] at h
      have hx : x = a := (List.cons_eq_cons.1 h).1
      subst hx
      simp [List.find?_cons, hp]
    | false =>
      rw [if_neg (by rw [hp]; exact Bool.false_ne_true)] at h
      simp [List.find?_cons, hp]
      exact ih h

/-- A table with at most one row under a key resolves a stored row of that
key by lookup. -/
theorem lookup_of_unique (tbl : TrackTable) (pid : Nat) (g : String) (t0 : Track)
    (hcnt : cnt tbl pid g ≤ 1) (ht0 : t0 ∈ tbl) (hk : keyMatch pid g t0 = true) :
    lookupTrack tbl pid g = some t0 := by
  have hmemf : t0 ∈ tbl.filter (keyMatch pid g) := List.mem_filter.2 ⟨ht0, hk⟩
  have hsingle : tbl.filter (keyMatch pid g) = [t0] := by
    unfold cnt at hcnt
    cases hl : tbl.filter (keyMatch pid g) with
    | nil => rw [hl] at hmemf; cases hmemf
    | cons a rest =>
      cases rest with
      | nil =>
        rw [hl] at hmemf
        simp only [List.mem_singleton] at hmemf
        rw [hmemf]
      | cons b r2 =>
        rw [hl] at hcnt
        simp at hcnt
  exact find?_of_filter_singleton _ tbl t0 hsingle

/-- The gid of a row resolved by lookup is the looked-up gid. -/
theorem gid_of_lookup (tbl : TrackTable) (pid : Nat) (g : String) (t1 : Track)
    (h : lookupTrack tbl pid g = some t1) : t1.gid = g := by
  unfold lookupTrack at h
  have hk := List.find?_some h
  unfold keyMatch at hk
  rw [Bool.and_eq_true] at hk
  exact beq_iff_eq.1 hk.2

/-- A download fold whose state already carries an escaped exception does
nothing further (the exception has left the loop). -/
theorem dl_foldl_frozen (fetch : String → Bool) (dir : String) (pid : Nat) :
    ∀ (L : List Track) (st : DownloadResult) (e : String), st.err = some e →
      L.foldl (downloadStep fetch dir pid) st = st := by
  intro L
  induction L with
  | nil => intro st e _; rfl
  | cons t L ih =>
    intro st e h
    have hstep : downloadStep fetch dir pid st t = st := by
      simp [downloadStep, h]
    rw [List.foldl_cons, hstep]
    exact ih st e h

/-- If every not-yet-downloaded row of the processed list carries a
track_url, the download fold raises no exception. -/
theorem dl_foldl_err_none (fetch : String → Bool) (dir : String) (pid : Nat) :
    ∀ (L : List Track) (st : DownloadResult), st.err = none →
      (∀ t ∈ L, t.track_file = none → t.track_url.isSome = true) →
      (L.foldl (downloadStep fetch dir pid) st).err = none := by
  intro L
  induction L with
  | nil => intro st h _; exact h
  | cons t L ih =>
    intro st h hL
    rw [List.foldl_cons]
    cases hf : t.track_file with
    | some v =>
      have hstep : downloadStep fetch dir pid st t = st := by
        simp [downloadStep, h, hf]
      rw [hstep]
      exact ih st h (fun x hx => hL x (List.mem_cons_of_mem t hx))
    | none =>
      have hu := hL t (List.mem_cons_self t L) hf
      cases hurl : t.track_url with
      | none => rw [hurl] at hu; simp at hu
      | some url =>
        have hstep : (downloadStep fetch dir pid st t).err = none := by
          simp [downloadStep, h, hf, hurl]
        exact ih _ hstep (fun x hx => hL x (List.mem_cons_of_mem t hx))

/-- Through a download fold, a row that already has a track_file keeps a
non-null track_file: every write of the loop stores some file name, never
null. -/
theorem dl_foldl_lookup_isSome (fetch : String → Bool) (dir : String) (pid pid0 : Nat) (g0 : String) :
    ∀ (L : List Track) (st : DownloadResult) (t1 : Track),
      lookupTrack st.table pid0 g0 = some t1 → t1.track_file.isSome = true →
      ∃ t2, lookupTrack (L.foldl (downloadStep fetch dir pid) st).table pid0 g0 = some t2 ∧
        t2.track_file.isSome = true := by
  intro L
  induction L with
  | nil => intro st t1 h hs; exact ⟨t1, h, hs⟩
  | cons t L ih =>
    intro st t1 h hs
    rw [List.foldl_cons]
    cases he : st.err with
    | some e =>
      have hstep : downloadStep fetch dir pid st t = st := by simp [downloadStep, he]
      rw [hstep]; exact ih st t1 h hs
    | none =>
      cases hf : t.track_file with
      | some v =>
        have hstep : downloadStep fetch dir pid st t = st := by simp [downloadStep, he, hf]
        rw [hstep]; exact ih st t1 h hs
      | none =>
        cases hurl : t.track_url with
        | none =>
          have hstep : downloadStep fetch dir pid st t =
              { st with err := some "TypeError: subprocess argument is None" } := by
            simp [downloadStep, he, hf, hurl]
          rw [hstep]
          exact ih _ t1 h hs
        | some url =>
          have hstep : downloadStep fetch dir pid st t =
              { table := st.table.map (setFileFn t.gid (downloadFileName dir pid t.gid)),
                attempts := st.attempts ++ [t.gid], err := none } := by
            simp [downloadStep, he, hf, hurl]
          rw [hstep]
          refine ih _ (setFileFn t.gid (downloadFileName dir pid t.gid) t1) ?_ ?_
          · show lookupTrack (st.table.map (setFileFn t.gid (downloadFileName dir pid t.gid))) pid0 g0 = _
            unfold lookupTrack
            rw [find?_map_pres _ _ (keyMatch_setFileFn t.gid (downloadFileName dir pid t.gid) pid0 g0)]
            unfold lookupTrack at h
            rw [h]
            rfl
          · unfold setFileFn
            split
            · simp
            · exact hs

/-- A download fold whose processed rows never target the looked-up gid
leaves the looked-up row exactly as it was. -/
theorem dl_foldl_lookup_frozen (fetch : String → Bool) (dir : String) (pid pid0 : Nat) (g0 : String) :
    ∀ (L : List Track) (st : DownloadResult) (t1 : Track),
      (∀ t ∈ L, t.track_file = none → t.gid ≠ g0) →
      lookupTrack st.table pid0 g0 = some t1 →
      lookupTrack (L.foldl (downloadStep fetch dir pid) st).table pid0 g0 = some t1 := by
  intro L
  induction L with
  | nil => intro st t1 _ h; exact h
  | cons t L ih =>
    intro st t1 hL h
    have ht1g : t1.gid = g0 := gid_of_lookup st.table pid0 g0 t1 h
    rw [List.foldl_cons]
    cases he : st.err with
    | some e =>
      have hstep : downloadStep fetch dir pid st t = st := by simp [downloadStep, he]
      rw [hstep]
      exact ih st t1 (fun x hx => hL x (List.mem_cons_of_mem t hx)) h
    | none =>
      cases hf : t.track_file with
      | some v =>
        have hstep : downloadStep fetch dir pid st t = st := by simp [downloadStep, he, hf]
        rw [hstep]
        exact ih st t1 (fun x hx => hL x (List.mem_cons_of_mem t hx)) h
      | none =>
        cases hurl : t.track_url with
        | none =>
          have hstep : downloadStep fetch dir pid st t =
              { st with err := some "TypeError: subprocess argument is None" } := by
            simp [downloadStep, he, hf, hurl]
          rw [hstep]
          exact ih _ t1 (fun x hx => hL x (List.mem_cons_of_mem t hx)) h
        | some url =>
          have hgid : t.gid ≠ g0 := hL t (List.mem_cons_self t L) hf
          have hstep : downloadStep fetch dir pid st t =
              { table := st.table.map (setFileFn t.gid (downloadFileName dir pid t.gid)),
                attempts := st.attempts ++ [t.gid], err := none } := by
            simp [downloadStep, he, hf, hurl]
          rw [hstep]
          refine ih _ t1 (fun x hx => hL x (List.mem_cons_of_mem t hx)) ?_
          show lookupTrack (st.table.map (setFileFn t.gid (downloadFileName dir pid t.gid))) pid0 g0 = _
          unfold lookupTrack
          rw [find?_map_pres _ _ (keyMatch_setFileFn t.gid (downloadFileName dir pid t.gid) pid0 g0)]
          unfold lookupTrack at h
          rw [h]
          have : setFileFn t.gid (downloadFileName dir pid t.gid) t1 = t1 := by
            unfold setFileFn
            rw [if_neg]
            intro hbeq
            exact hgid (beq_iff_eq.1 hbeq ▸ ht1g ▸ rfl)
          simp [this]

/-- A download fold whose processed rows never carry the given gid never
launches a transfer for it. -/
theorem dl_foldl_attempts_not (fetch : String → Bool) (dir : String) (pid : Nat) (g0 : String) :
    ∀ (L : List Track) (st : DownloadResult),
      (∀ t ∈ L, t.track_file = none → t.gid ≠ g0) →
      st.attempts.contains g0 = false →
      (L.foldl (downloadStep fetch dir pid) st).attempts.contains g0 = false := by
  intro L
  induction L with
  | nil => intro st _ h; exact h
  | cons t L ih =>
    intro st hL h
    rw [List.foldl_cons]
    cases he : st.err with
    | some e =>
      have hstep : downloadStep fetch dir pid st t = st := by simp [downloadStep, he]
      rw [hstep]
      exact ih st (fun x hx => hL x (List.mem_cons_of_mem t hx)) h
    | none =>
      cases hf : t.track_file with
      | some v =>
        have hstep : downloadStep fetch dir pid st t = st := by simp [downloadStep, he, hf]
        rw [hstep]
        exact ih st (fun x hx => hL x (List.mem_cons_of_mem t hx)) h
      | none =>
        cases hurl : t.track_url with
        | none =>
          have hstep : downloadStep fetch dir pid st t =
              { st with err := some "TypeError: subprocess argument is None" } := by
            simp [downloadStep, he, hf, hurl]
          rw [hstep]
          exact ih _ (fun x hx => hL x (List.mem_cons_of_mem t hx)) h
        | some url =>
          have hgid : t.gid ≠ g0 := hL t (List.mem_cons_self t L) hf
          have hstep : downloadStep fetch dir pid st t =
              { table := st.table.map (setFileFn t.gid (downloadFileName dir pid t.gid)),
                attempts := st.attempts ++ [t.gid], err := none } := by
            simp [downloadStep, he, hf, hurl]
          rw [hstep]
          refine ih _ (fun x hx => hL x (List.mem_cons_of_mem t hx)) ?_
          show (st.attempts ++ [t.gid]).contains g0 = false
          rw [Bool.eq_false_iff]
          intro hc
          have hmem : g0 ∈ st.attempts ++ [t.gid] := (contains_iff_mem _ _).1 hc

          rcases List.mem_append.1 hmem with hmem1 | hmem2
          · rw [(contains_iff_mem st.attempts g0).2 hmem1] at h
            cases h
          · simp only [List.mem_singleton] at hmem2
            exact hgid hmem2.symm

/-- In a well-formed table, the per-podcast row list splits around a stored
row of that podcast, and no other row of the podcast shares its gid. -/
theorem snapshot_gid_unique (tbl : TrackTable) (pid : Nat) (t0 : Track)
    (hwf : wfTable tbl) (ht0 : t0 ∈ tbl) (hp : t0.podcast = pid) :
    ∃ L1 L2, tracksOf tbl pid = L1 ++ t0 :: L2 ∧
      (∀ t ∈ L1, t.gid ≠ t0.gid) ∧ (∀ t ∈ L2, t.gid ≠ t0.gid) ∧
      (∀ t ∈ L1, t.podcast = pid) ∧ (∀ t ∈ L2, t.podcast = pid) ∧
      (∀ t ∈ L1, t ∈ tbl) ∧ (∀ t ∈ L2, t ∈ tbl) := by
  have hsnap : t0 ∈ tracksOf tbl pid :=
    List.mem_filter.2 ⟨ht0, by simp [hp]⟩
  obtain ⟨L1, L2, hdecomp⟩ := List.append_of_mem hsnap
  have hkt0 : keyMatch pid t0.gid t0 = true := by unfold keyMatch; simp [hp]
  have hcnt2 : ((tracksOf tbl pid).filter (keyMatch pid t0.gid)).length ≤ 1 := by
    unfold tracksOf
    rw [List.filter_filter]
    have hcongr : tbl.filter (fun t => keyMatch pid t0.gid t && (t.podcast == pid))
        = tbl.filter (keyMatch pid t0.gid) := by
      apply List.filter_congr
      intro x _
      unfold keyMatch
      cases hxp : (x.podcast == pid) <;> cases hxg : (x.gid == t0.gid) <;> simp [hxp, hxg]
    rw [hcongr]
    exact hwf pid t0.gid
  rw [hdecomp, List.filter_append, List.filter_cons, if_pos hkt0] at hcnt2
  rw [List.length_append, List.length_cons] at hcnt2
  have h10 : (L1.filter (keyMatch pid t0.gid)).length = 0 := by omega
  have h20 : (L2.filter (keyMatch pid t0.gid)).length = 0 := by omega
  have hnone1 : ∀ t ∈ L1, ¬ keyMatch pid t0.gid t = true :=
    List.filter_eq_nil_iff.1 (List.length_eq_zero.1 h10)
  have hnone2 : ∀ t ∈ L2, ¬ keyMatch pid t0.gid t = true :=
    List.filter_eq_nil_iff.1 (List.length_eq_zero.1 h20)
  have hmem1 : ∀ t ∈ L1, t ∈ tracksOf tbl pid :=
    fun t ht => hdecomp ▸ List.mem_append_left _ ht
  have hmem2 : ∀ t ∈ L2, t ∈ tracksOf tbl pid :=
    fun t ht => hdecomp ▸ List.mem_append_right _ (List.mem_cons_of_mem _ ht)
  have hpc1 : ∀ t ∈ L1, t.podcast = pid :=
    fun t ht => beq_iff_eq.1 (List.mem_filter.1 (hmem1 t ht)).2
  have hpc2 : ∀ t ∈ L2, t.podcast = pid :=
    fun t ht => beq_iff_eq.1 (List.mem_filter.1 (hmem2 t ht)).2
  refine ⟨L1, L2, hdecomp, ?_, ?_, hpc1, hpc2,
    fun t ht => (List.mem_filter.1 (hmem1 t ht)).1,
    fun t ht => (List.mem_filter.1 (hmem2 t ht)).1⟩
  · intro t ht hg
    exact hnone1 t ht (by unfold keyMatch; simp [hpc1 t ht, hg])
  · intro t ht hg
    exact hnone2 t ht (by unfold keyMatch; simp [hpc2 t ht, hg])

/- ------------------------------------------------------------------ -/
/- Claim C3                                                            -/
/- ------------------------------------------------------------------ -/

/-- Claim C3 counterexample: one episode of podcast 1, not yet downloaded,
with a source url; the transfer fails (fetch always returns false), yet
after the download operation the episode's local_path is not null — it
holds the constructed file name, because the source never inspects the curl
exit status before executing the UPDATE.  The claim says local_path remains
null for that episode. -/
theorem download_sets_path_despite_failure :
    (downloadPodcast (fun _ => false) "/d" 1
      [{ gid := "g", podcast := 1, title := "t", description := "d",
         published := none, track_url := some "http://u", track_file := none }]).table
    = [{ gid := "g", podcast := 1, title := "t", description := "d",
         published := none, track_url := some "http://u",
         track_file := some "/d/cast1-g.mp3" }] := by
  decide

/-- Claim C3 as amended: for every not-yet-downloaded episode of the
podcast that has a source url (and provided every such episode has one, so
no TypeError aborts the loop first), the download operation sets its
local_path to the constructed file name regardless of the transfer result
(fetch is universally quantified, including always-failing transfers), and
the loop runs to completion over the remaining episodes (no error). -/
theorem download_records_path_regardless (fetch : String → Bool) (dir : String) (pid : Nat)
    (tbl : TrackTable) (t0 : Track) (hwf : wfTable tbl)
    (hurl : ∀ t ∈ tbl, t.podcast = pid → t.track_file = none → t.track_url.isSome = true)
    (ht0 : t0 ∈ tbl) (hp : t0.podcast = pid) (hf : t0.track_file = none) :
    (downloadPodcast fetch dir pid tbl).err = none ∧
    lookupTrack (downloadPodcast fetch dir pid tbl).table pid t0.gid
      = some { t0 with track_file := some (downloadFileName dir pid t0.gid) } := by
  obtain ⟨L1, L2, hdecomp, hg1, hg2, hp1, hp2, hm1, hm2⟩ :=
    snapshot_gid_unique tbl pid t0 hwf ht0 hp
  have hlook0 : lookupTrack tbl pid t0.gid = some t0 :=
    lookup_of_unique tbl pid t0.gid t0 (hwf pid t0.gid) ht0 (by unfold keyMatch; simp [hp])
  unfold downloadPodcast
  rw [hdecomp, List.foldl_append, List.foldl_cons]
  have hurl1 : ∀ t ∈ L1, t.track_file = none → t.track_url.isSome = true :=
    fun t ht hn => hurl t (hm1 t ht) (hp1 t ht) hn
  have hurl2 : ∀ t ∈ L2, t.track_file = none → t.track_url.isSome = true :=
    fun t ht hn => hurl t (hm2 t ht) (hp2 t ht) hn
  set st1 := L1.foldl (downloadStep fetch dir pid) (⟨tbl, [], none⟩ : DownloadResult) with hst1
  have herr1 : st1.err = none :=
    dl_foldl_err_none fetch dir pid L1 ⟨tbl, [], none⟩ rfl hurl1
  have hlook1 : lookupTrack st1.table pid t0.gid = some t0 :=
    dl_foldl_lookup_frozen fetch dir pid pid t0.gid L1 ⟨tbl, [], none⟩ t0
      (fun t ht _ => hg1 t ht) hlook0
  obtain ⟨url, hurl0⟩ := Option.isSome_iff_exists.1 (hurl t0 ht0 hp hf)
  have hstep : downloadStep fetch dir pid st1 t0 =
      { table := st1.table.map (setFileFn t0.gid (downloadFileName dir pid t0.gid)),
        attempts := st1.attempts ++ [t0.gid], err := none } := by
    simp [downloadStep, herr1, hf, hurl0]
  rw [hstep]
  have hlook2 : lookupTrack
      (st1.table.map (setFileFn t0.gid (downloadFileName dir pid t0.gid))) pid t0.gid
      = some { t0 with track_file := some (downloadFileName dir pid t0.gid) } := by
    unfold lookupTrack
    rw [find?_map_pres _ _ (keyMatch_setFileFn t0.gid (downloadFileName dir pid t0.gid) pid t0.gid)]
    unfold lookupTrack at hlook1
    rw [hlook1]
    have hset : setFileFn t0.gid (downloadFileName dir pid t0.gid) t0
        = { t0 with track_file := some (downloadFileName dir pid t0.gid) } := by
      unfold setFileFn
      rw [if_pos (by simp)]
    simp [hset]
  constructor
  · exact dl_foldl_err_none fetch dir pid L2 _ rfl hurl2
  · exact dl_foldl_lookup_frozen fetch dir pid pid t0.gid L2 _ _
      (fun t ht _ => hg2 t ht) hlook2

/-- Witness for the amended C3 at a concrete input: one episode, failing
transfer; the run completes and the path is recorded. -/
theorem download_records_path_regardless_witness :
    (downloadPodcast (fun _ => false) "/d" 1
      [{ gid := "g", podcast := 1, title := "t", description := "d",
         published := none, track_url := some "http://u", track_file := none }]).err = none ∧
    lookupTrack (downloadPodcast (fun _ => false) "/d" 1
      [{ gid := "g", podcast := 1, title := "t", description := "d",
         published := none, track_url := some "http://u", track_file := none }]).table 1 "g"
      = some { gid := "g", podcast := 1, title := "t", description := "d",
               published := none, track_url := some "http://u",
               track_file := some (downloadFileName "/d" 1 "g") } :=
  download_records_path_regardless (fun _ => false) "/d" 1
    [{ gid := "g", podcast := 1, title := "t", description := "d",
       published := none, track_url := some "http://u", track_file := none }]
    { gid := "g", podcast := 1, title := "t", description := "d",
      published := none, track_url := some "http://u", track_file := none }
    (fun p G => List.length_filter_le _ _)
    (by decide) (by decide) rfl rfl

/- ------------------------------------------------------------------ -/
/- Claim C5                                                            -/
/- ------------------------------------------------------------------ -/

/-- Claim C5: once an episode's local_path is non-null it is never cleared
or set back to null: an upsert of any key keeps the row's track_file value
exactly (the update dictionary of refresh never contains the track_file
column), any download run leaves the row with a non-null track_file, and a
download of the row's own podcast skips it entirely — it never launches a
transfer for its gid and leaves the row untouched.  (The tag writer,
update_metadata_track, takes no table and returns none: it performs no
storage writes, as its type shows.) -/
theorem local_path_never_cleared (tbl : TrackTable) (pid0 : Nat) (g0 : String) (t0 : Track)
    (hwf : wfTable tbl) (hl : lookupTrack tbl pid0 g0 = some t0)
    (hs : t0.track_file.isSome = true) :
    (∀ pid g f, ∃ t2, lookupTrack (upsertEpisode tbl pid g f) pid0 g0 = some t2 ∧
        t2.track_file = t0.track_file) ∧
    (∀ fetch dir pid, ∃ t2,
        lookupTrack (downloadPodcast fetch dir pid tbl).table pid0 g0 = some t2 ∧
        t2.track_file.isSome = true) ∧
    (∀ fetch dir, lookupTrack (downloadPodcast fetch dir pid0 tbl).table pid0 g0 = some t0 ∧
        (downloadPodcast fetch dir pid0 tbl).attempts.contains g0 = false) := by
  have ht0mem : t0 ∈ tbl := List.mem_of_find?_eq_some hl
  have hg0 : t0.gid = g0 := gid_of_lookup tbl pid0 g0 t0 hl
  have hk0 := List.find?_some hl
  have hp0 : t0.podcast = pid0 := by
    unfold keyMatch at hk0
    rw [Bool.and_eq_true] at hk0
    exact beq_iff_eq.1 hk0.1
  refine ⟨?_, ?_, ?_⟩
  · intro pid g f
    unfold upsertEpisode
    split
    · refine ⟨updFn pid f t0, ?_, track_file_updFn pid f t0⟩
      unfold lookupTrack
      rw [find?_map_pres _ _ (keyMatch_updFn pid f pid0 g0)]
      unfold lookupTrack at hl
      rw [hl]
      rfl
    · refine ⟨t0, ?_, rfl⟩
      unfold lookupTrack
      rw [List.find?_append]
      unfold lookupTrack at hl
      rw [hl]
      simp
  · intro fetch dir pid
    exact dl_foldl_lookup_isSome fetch dir pid pid0 g0 (tracksOf tbl pid) ⟨tbl, [], none⟩ t0 hl hs
  · intro fetch dir
    have hnot : ∀ t ∈ tracksOf tbl pid0, t.track_file = none → t.gid ≠ g0 := by
      intro t ht hn hg
      have hmem := List.mem_filter.1 ht
      have hkt : keyMatch pid0 g0 t = true := by
        unfold keyMatch
        simp [hmem.2, hg]
      have hne : t ≠ t0 := by
        intro he
        rw [← he, hn] at hs
        simp at hs
      have h2 : 2 ≤ cnt tbl pid0 g0 :=
        two_mem_le_length (List.mem_filter.2 ⟨hmem.1, hkt⟩)
          (List.mem_filter.2 ⟨ht0mem, by unfold keyMatch; simp [hp0, hg0]⟩) hne
      have := hwf pid0 g0
      omega
    constructor
    · exact dl_foldl_lookup_frozen fetch dir pid0 pid0 g0 (tracksOf tbl pid0)
        ⟨tbl, [], none⟩ t0 hnot hl
    · exact dl_foldl_attempts_not fetch dir pid0 g0 (tracksOf tbl pid0)
        ⟨tbl, [], none⟩ hnot rfl

/-- Witness for C5 at a concrete input: a downloaded episode (1, g) with a
stored path; downloading its podcast leaves it untouched and attempts no
transfer for it. -/
theorem local_path_never_cleared_witness :
    lookupTrack (downloadPodcast (fun _ => true) "/d" 1
      [{ gid := "g", podcast := 1, title := "t", description := "d",
         published := none, track_url := some "http://u", track_file := some "/old.mp3" }]).table 1 "g"
      = some { gid := "g", podcast := 1, title := "t", description := "d",
               published := none, track_url := some "http://u", track_file := some "/old.mp3" } ∧
    (downloadPodcast (fun _ => true) "/d" 1
      [{ gid := "g", podcast := 1, title := "t", description := "d",
         published := none, track_url := some "http://u", track_file := some "/old.mp3" }]).attempts.contains "g"
      = false :=
  (local_path_never_cleared
    [{ gid := "g", podcast := 1, title := "t", description := "d",
       published := none, track_url := some "http://u", track_file := some "/old.mp3" }]
    1 "g"
    { gid := "g", podcast := 1, title := "t", description := "d",
      published := none, track_url := some "http://u", track_file := some "/old.mp3" }
    (fun p G => List.length_filter_le _ _) (by decide) rfl).2.2 (fun _ => true) "/d"

/- ------------------------------------------------------------------ -/
/- Claim C4                                                            -/
/- ------------------------------------------------------------------ -/

/-- A refresh batch whose state already carries an escaped exception does
nothing further. -/
theorem rb_foldl_frozen (feeds : String → Option FeedData) :
    ∀ (L : List CastRow) (d : DB) (e : String),
      L.foldl (refreshBatchStep feeds) (d, some e) = (d, some e) := by
  intro L
  induction L with
  | nil => intro d e; rfl
  | cons c L ih =>
    intro d e
    have hstep : refreshBatchStep feeds (d, some e) c = (d, some e) := by
      simp [refreshBatchStep]
    rw [List.foldl_cons, hstep]
    exact ih d e

/-- One refresh item step leaves the track rows of every other podcast
unchanged: the update branch maps only rows of the refreshed podcast and
the insert branch appends a row of the refreshed podcast. -/
theorem tracksOf_refreshStep_other (pid q : Nat) (h : pid ≠ q)
    (existing : List String) (item : FeedItem) (tbl : TrackTable) :
    tracksOf (refreshStep pid existing tbl item) q = tracksOf tbl q := by
  unfold refreshStep
  split
  · unfold tracksOf
    rw [filter_map_pres (updFn pid (fieldsOf item)) (fun t => t.podcast == q)
      (fun t => by simp [podcast_updFn])]
    have hid : ∀ t ∈ tbl.filter (fun t => t.podcast == q), updFn pid (fieldsOf item) t = t := by
      intro t ht
      have hq : (t.podcast == q) = true := (List.mem_filter.1 ht).2
      unfold updFn
      rw [if_neg]
      intro hpp
      exact h ((beq_iff_eq.1 hpp).symm.trans (beq_iff_eq.1 hq))
    calc (tbl.filter (fun t => t.podcast == q)).map (updFn pid (fieldsOf item))
        = (tbl.filter (fun t => t.podcast == q)).map id := List.map_congr_left hid
      _ = tbl.filter (fun t => t.podcast == q) := List.map_id _
  · unfold tracksOf
    rw [List.filter_append]
    have hb : ((newTrackRow pid item.id (fieldsOf item)).podcast == q) = false := by
      simp [newTrackRow]
      exact h
    simp [List.filter_cons, hb]

/-- The whole item loop of a refresh leaves the track rows of every other
podcast unchanged. -/
theorem tracksOf_refreshTracks_other (pid q : Nat) (h : pid ≠ q)
    (items : List FeedItem) (tbl : TrackTable) :
    tracksOf (refreshPodcastTracks tbl pid items) q = tracksOf tbl q := by
  unfold refreshPodcastTracks
  generalize gidsOf tbl pid = ex
  induction items generalizing tbl with
  | nil => rfl
  | cons it items ih =>
    rw [List.foldl_cons]
    calc tracksOf (items.foldl (refreshStep pid ex) (refreshStep pid ex tbl it)) q
        = tracksOf (refreshStep pid ex tbl it) q := ih _
      _ = tracksOf tbl q := tracksOf_refreshStep_other pid q h ex it tbl

/-- Refreshing one podcast leaves every other podcast row unchanged. -/
theorem findCast_refreshPodcast_other (d : DB) (c : CastRow) (data : FeedData) (i : Nat)
    (h : c.id ≠ i) : findCast (refreshPodcast d c data) i = findCast d i := by
  unfold findCast refreshPodcast
  dsimp only
  rw [find?_map_pres (castUpd c data) (fun r => r.id == i)
    (fun r => by unfold castUpd; split <;> rfl)]
  cases hfind : d.casts.find? (fun r => r.id == i) with
  | none => rfl
  | some r =>
    have hri : r.id = i := by simpa using List.find?_some hfind
    simp only [Option.map]
    unfold castUpd
    rw [if_neg]
    intro hb
    exact h ((beq_iff_eq.1 hb).symm.trans hri)

/-- Refreshing one podcast leaves the track rows of every other podcast
unchanged. -/
theorem tracksOf_refreshPodcast_other (d : DB) (c : CastRow) (data : FeedData) (q : Nat)
    (h : c.id ≠ q) : tracksOf (refreshPodcast d c data).tracks q = tracksOf d.tracks q := by
  unfold refreshPodcast
  exact tracksOf_refreshTracks_other c.id q h data.items d.tracks

/-- A refresh batch over podcasts whose feeds all parse raises nothing and
leaves every podcast id outside the batch untouched. -/
theorem rb_foldl_ok (feeds : String → Option FeedData) :
    ∀ (L : List CastRow) (d : DB),
      (∀ x ∈ L, (feeds x.url).isSome = true) →
      (L.foldl (refreshBatchStep feeds) (d, none)).2 = none ∧
      (∀ i, (∀ x ∈ L, x.id ≠ i) →
        findCast (L.foldl (refreshBatchStep feeds) (d, none)).1 i = findCast d i ∧
        tracksOf (L.foldl (refreshBatchStep feeds) (d, none)).1.tracks i = tracksOf d.tracks i) := by
  intro L
  induction L with
  | nil => intro d _; exact ⟨rfl, fun i _ => ⟨rfl, rfl⟩⟩
  | cons c L ih =>
    intro d hok
    obtain ⟨data, hdata⟩ := Option.isSome_iff_exists.1 (hok c (List.mem_cons_self c L))
    have hstep : refreshBatchStep feeds (d, none) c = (refreshPodcast d c data, none) := by
      simp [refreshBatchStep, hdata]
    rw [List.foldl_cons, hstep]
    have ih2 := ih (refreshPodcast d c data) (fun x hx => hok x (List.mem_cons_of_mem c hx))
    refine ⟨ih2.1, ?_⟩
    intro i hi
    have hci : c.id ≠ i := hi c (List.mem_cons_self c L)
    have htail := ih2.2 i (fun x hx => hi x (List.mem_cons_of_mem c hx))
    exact ⟨htail.1.trans (findCast_refreshPodcast_other d c data i hci),
           htail.2.trans (tracksOf_refreshPodcast_other d c data i hci)⟩

/-- Claim C4 counterexample: two podcasts; the first feed fails to parse,
the second parses fine, yet after the batch refresh the error has escaped
(the loop has no handler) and podcast 2 is untouched — its name is still
null, so it was not refreshed.  The claim says every other podcast in the
batch is still refreshed. -/
theorem refresh_batch_aborts_counterexample :
    (Database_refresh
      (fun u => if u == "u2" then some ⟨⟨"T", "A"⟩, []⟩ else none)
      ⟨[⟨1, "u1", none, none⟩, ⟨2, "u2", none, none⟩], []⟩).2 = some "FeedFetchError" ∧
    findCast (Database_refresh
      (fun u => if u == "u2" then some ⟨⟨"T", "A"⟩, []⟩ else none)
      ⟨[⟨1, "u1", none, none⟩, ⟨2, "u2", none, none⟩], []⟩).1 2
      = some ⟨2, "u2", none, none⟩ := by
  decide

/-- Claim C4 as amended: during a batch refresh, a fetch/parse failure on
one podcast's feed aborts that podcast's reconciliation and the whole rest
of the batch: the failing podcast and every podcast after it keep their
podcast row and their episode rows exactly as they were (podcasts before
the failure, whose feeds parsed, have been refreshed).  Stated for the
first failing position, with distinct podcast ids as the id sequence
guarantees. -/
theorem refresh_batch_aborts_at_first_failure (feeds : String → Option FeedData) (d : DB)
    (l1 : List CastRow) (c : CastRow) (l2 : List CastRow)
    (hsplit : d.casts = l1 ++ c :: l2)
    (hok : ∀ x ∈ l1, (feeds x.url).isSome = true)
    (hfail : feeds c.url = none)
    (hids : (l1 ++ c :: l2).Pairwise (fun a b => a.id ≠ b.id)) :
    (Database_refresh feeds d).2 = some "FeedFetchError" ∧
    ∀ x ∈ c :: l2, findCast (Database_refresh feeds d).1 x.id = findCast d x.id ∧
      tracksOf (Database_refresh feeds d).1.tracks x.id = tracksOf d.tracks x.id := by
  unfold Database_refresh
  rw [hsplit, List.foldl_append]
  have hdisj : ∀ a ∈ l1, ∀ b ∈ c :: l2, a.id ≠ b.id := (List.pairwise_append.1 hids).2.2
  have hokres := rb_foldl_ok feeds l1 d hok
  set st1 := l1.foldl (refreshBatchStep feeds) (d, none) with hst1def
  have hst1 : st1 = (st1.1, none) := by
    conv_lhs => rw [← Prod.mk.eta (p := st1)]
    rw [hokres.1]
  have hstep : refreshBatchStep feeds st1 c = (st1.1, some "FeedFetchError") := by
    rw [hst1]
    simp [refreshBatchStep, hfail]
  rw [List.foldl_cons, hstep, rb_foldl_frozen feeds l2 st1.1 "FeedFetchError"]
  exact ⟨rfl, fun x hx => hokres.2 x.id (fun a ha => hdisj a ha x hx)⟩

/-- Witness for the amended C4 at a concrete input: the batch of the
counterexample, failing at its first podcast; nothing is refreshed. -/
theorem refresh_batch_aborts_witness :
    (Database_refresh
      (fun u => if u == "u2" then some ⟨⟨"T", "A"⟩, []⟩ else none)
      ⟨[⟨1, "u1", none, none⟩, ⟨2, "u2", none, none⟩], []⟩).2 = some "FeedFetchError" ∧
    ∀ x ∈ ([⟨1, "u1", none, none⟩, ⟨2, "u2", none, none⟩] : List CastRow),
      findCast (Database_refresh
        (fun u => if u == "u2" then some ⟨⟨"T", "A"⟩, []⟩ else none)
        ⟨[⟨1, "u1", none, none⟩, ⟨2, "u2", none, none⟩], []⟩).1 x.id
        = findCast ⟨[⟨1, "u1", none, none⟩, ⟨2, "u2", none, none⟩], []⟩ x.id ∧
      tracksOf (Database_refresh
        (fun u => if u == "u2" then some ⟨⟨"T", "A"⟩, []⟩ else none)
        ⟨[⟨1, "u1", none, none⟩, ⟨2, "u2", none, none⟩], []⟩).1.tracks x.id
        = tracksOf ([] : TrackTable) x.id :=
  refresh_batch_aborts_at_first_failure
    (fun u => if u == "u2" then some ⟨⟨"T", "A"⟩, []⟩ else none)
    ⟨[⟨1, "u1", none, none⟩, ⟨2, "u2", none, none⟩], []⟩
    [] ⟨1, "u1", none, none⟩ [⟨2, "u2", none, none⟩]
    rfl (by simp) (by decide) (by decide)

/- ------------------------------------------------------------------ -/
/- Claim C6                                                            -/
/- ------------------------------------------------------------------ -/

/-- A playlist body fold over rows that all lack a track_file writes
nothing. -/
theorem m3u_foldl_skip (reSub : String → String → String → String)
    (extm3u : Bool) (ps : Option (String × String)) :
    ∀ (L : List Track) (out : String), (∀ t ∈ L, t.track_file = none) →
      L.foldl (m3uStep reSub extm3u ps) out = out := by
  intro L
  induction L with
  | nil => intro out _; rfl
  | cons t L ih =>
    intro out hL
    have hstep : m3uStep reSub extm3u ps out t = out := by
      unfold m3uStep
      rw [hL t (List.mem_cons_self t L)]
    rw [List.foldl_cons, hstep]
    exact ih out (fun x hx => hL x (List.mem_cons_of_mem t hx))

/-- Claim C6 counterexample: a podcast with two episodes, none downloaded
(both local_path null) and both without a publish date; the playlist
generator does not succeed — sorting the rows compares two None keys and
raises TypeError.  The claim says it succeeds for every podcast with zero
downloaded episodes, whatever the publish dates. -/
theorem dump_errors_counterexample :
    dump_to_m3u (fun _ _ s => s)
      [{ gid := "g1", podcast := 1, title := "t1", description := "d1",
         published := none, track_url := none, track_file := none },
       { gid := "g2", podcast := 1, title := "t2", description := "d2",
         published := none, track_url := none, track_file := none }] true none
    = Except.error "TypeError: comparison of NoneType is not supported" := by
  rfl

/-- Claim C6 as amended: for every podcast with zero downloaded episodes,
provided the publish-date sort cannot raise (fewer than two episodes, or
every episode has a publish date), the playlist generator succeeds and its
output is exactly the header line in extended format, or empty in plain
format. -/
theorem dump_header_only_when_no_downloads (reSub : String → String → String → String)
    (tracks : List Track) (extm3u : Bool) (ps : Option (String × String))
    (hnofile : ∀ t ∈ tracks, t.track_file = none)
    (hsortok : tracks.length < 2 ∨ ∀ t ∈ tracks, t.published.isSome = true) :
    dump_to_m3u reSub tracks extm3u ps
      = Except.ok (if extm3u then "#EXTM3U\n\n" else "") := by
  unfold dump_to_m3u
  have hguard : (decide (2 ≤ tracks.length) && tracks.any (fun t => t.published.isNone)) = false := by
    rcases hsortok with hlen | hall
    · have hd : decide (2 ≤ tracks.length) = false := by
        simp
        omega
      rw [hd, Bool.false_and]
    · have ha : tracks.any (fun t => t.published.isNone) = false := by
        rw [Bool.eq_false_iff]
        intro hany
        obtain ⟨t, ht, hnone⟩ := List.any_eq_true.1 hany
        have hsome := hall t ht
        rw [Option.isNone_iff_eq_none.1 hnone] at hsome
        simp at hsome
      rw [ha, Bool.and_false]
  rw [hguard]
  simp only [Bool.false_eq_true, if_false]
  congr 1
  apply m3u_foldl_skip
  intro t ht
  exact hnofile t (List.mem_mergeSort.1 ht)

/-- Witness for the amended C6 at a concrete input: a podcast with no
episodes, extended format; the output is exactly the header. -/
theorem dump_header_only_witness :
    dump_to_m3u (fun _ _ s => s) [] true none = Except.ok "#EXTM3U\n\n" :=
  dump_header_only_when_no_downloads (fun _ _ s => s) [] true none
    (by intro t ht; cases ht) (Or.inl (by simp))

/- ------------------------------------------------------------------ -/
/- Claim C7                                                            -/
/- ------------------------------------------------------------------ -/

/-- The link scan of the source equals the first-match selection over links
that declare an audio media type and carry an href. -/
theorem findAudioUrl_eq_firstAudioHrefLink :
    ∀ ls, findAudioUrl ls = firstAudioHrefLink ls := by
  intro ls
  induction ls with
  | nil => rfl
  | cons l ls ih =>
    unfold findAudioUrl firstAudioHrefLink
    rw [List.find?_cons]
    cases hp : ((match l.type with
        | some ty => firstSegment ty == "audio"
        | none => false) && l.href.isSome) with
    | true => simp [hp]
    | false =>
      simp only [hp, Bool.false_eq_true, if_false]
      rw [ih]
      rfl

/-- Claim C7 counterexample: a feed item whose first audio-typed link has
no href and whose second audio-typed link has one.  The claim selects the
first link whose media type is audio — which contributes no href, so the
stored source_url would be unset — but the source skips href-less links and
stores the second link's href. -/
theorem source_url_scan_counterexample :
    specFirstAudioHref
      [⟨some "audio/mpeg", none⟩, ⟨some "audio/ogg", some "http://u"⟩] = none ∧
    lookupTrack (refreshPodcastTracks [] 1
      [{ id := "g", title := "T", description := "D", published_parsed := none,
         date_parsed := none,
         links := [⟨some "audio/mpeg", none⟩, ⟨some "audio/ogg", some "http://u"⟩] }]) 1 "g"
      = some { gid := "g", podcast := 1, title := "T", description := "D",
               published := none, track_url := some "http://u", track_file := none } := by
  decide

/-- Claim C7 as amended: for every feed item, the track_url stored for the
item by the refresh loop is the href of the first link, in document order,
that both declares a media type with primary component audio and carries an
href; when no such link exists a newly inserted episode has track_url null
and an existing episode keeps its previous track_url — and the episode is
stored (present under its key) either way. -/
theorem refresh_stores_first_audio_href (tbl : TrackTable) (pid : Nat) (item : FeedItem) :
    ∃ t2, lookupTrack (refreshPodcastTracks tbl pid [item]) pid item.id = some t2 ∧
      t2.title = item.title ∧ t2.description = item.description ∧
      t2.track_url = (match firstAudioHrefLink item.links with
        | some u => some u
        | none => match lookupTrack tbl pid item.id with
          | some told => told.track_url
          | none => none) := by
  unfold refreshPodcastTracks
  rw [List.foldl_cons, List.foldl_nil]
  unfold refreshStep
  split
  · next h =>
    have hpos : 0 < cnt tbl pid item.id := (contains_gidsOf_iff tbl pid item.id).1 h
    obtain ⟨t0, ht0, hk0⟩ := (cnt_pos_iff tbl pid item.id).1 hpos
    cases hfind : lookupTrack tbl pid item.id with
    | none =>
      exfalso
      unfold lookupTrack at hfind
      exact List.find?_eq_none.1 hfind t0 ht0 hk0
    | some tf =>
      have hkf : keyMatch pid item.id tf = true := by
        unfold lookupTrack at hfind
        exact List.find?_some hfind
      have hpmatch : (tf.podcast == pid) = true := by
        unfold keyMatch at hkf
        rw [Bool.and_eq_true] at hkf
        exact hkf.1
      refine ⟨updFn pid (fieldsOf item) tf, ?_, ?_, ?_, ?_⟩
      · unfold lookupTrack
        rw [find?_map_pres _ _ (keyMatch_updFn pid (fieldsOf item) pid item.id)]
        unfold lookupTrack at hfind
        rw [hfind]
        rfl
      · unfold updFn
        rw [if_pos hpmatch]
        rfl
      · unfold updFn
        rw [if_pos hpmatch]
        rfl
      · unfold updFn
        rw [if_pos hpmatch]
        show (match (fieldsOf item).track_url with
          | some u => some u
          | none => tf.track_url) = _
        have hfu : (fieldsOf item).track_url = firstAudioHrefLink item.links := by
          unfold fieldsOf
          exact findAudioUrl_eq_firstAudioHrefLink item.links
        rw [hfu]
  · next h =>
    have hnone : lookupTrack tbl pid item.id = none := by
      unfold lookupTrack
      rw [List.find?_eq_none]
      intro x hx hpx
      exact h ((contains_gidsOf_iff tbl pid item.id).2 ((cnt_pos_iff tbl pid item.id).2 ⟨x, hx, hpx⟩))
    refine ⟨newTrackRow pid item.id (fieldsOf item), ?_, rfl, rfl, ?_⟩
    · unfold lookupTrack
      rw [List.find?_append]
      unfold lookupTrack at hnone
      rw [hnone]
      simp [List.find?_cons, keyMatch_newTrackRow]
    · show (fieldsOf item).track_url = _
      have hfu : (fieldsOf item).track_url = firstAudioHrefLink item.links := by
        unfold fieldsOf
        exact findAudioUrl_eq_firstAudioHrefLink item.links
      rw [hfu, hnone]
      cases firstAudioHrefLink item.links <;> rfl

/- ------------------------------------------------------------------ -/
/- Claim C8                                                            -/
/- ------------------------------------------------------------------ -/

/-- Claim C8: for every episode with a file to tag (a non-null track_file
or an override path) whose published date is null, the tag writer raises
while building the date tag — before track_meta.save() runs, so no tags
reach the file; and given an openable file, tagging saves tags exactly when
published_at is non-null. -/
theorem tag_writer_requires_published (openOk : String → Bool) (nm au : String)
    (t : Track) (fo : Option String) (f : String)
    (hf : effFile t fo = some f) (hopen : openOk f = true) :
    (t.published = none →
      update_metadata_track openOk nm au t fo
        = Except.error "AttributeError: NoneType has no attribute year") ∧
    ((∃ p tags, update_metadata_track openOk nm au t fo = Except.ok (some (p, tags)))
      ↔ t.published.isSome = true) := by
  have hred : update_metadata_track openOk nm au t fo
      = (match t.published with
         | none => Except.error "AttributeError: NoneType has no attribute year"
         | some d => Except.ok (some (f,
            { album := nm, artist := au, genre := "Podcast", title := t.title,
              date := natToStr d.year ++ "-" ++ natToStr d.month ++ "-" ++ natToStr d.day }))) := by
    unfold update_metadata_track
    rw [hf]
    simp [hopen]
  rw [hred]
  constructor
  · intro hp
    rw [hp]
  · constructor
    · rintro ⟨p, tags, heq⟩
      cases hp : t.published with
      | none => rw [hp] at heq; cases heq
      | some d => simp
    · intro hs
      obtain ⟨d, hd⟩ := Option.isSome_iff_exists.1 hs
      rw [hd]
      exact ⟨f, _, rfl⟩

/-- Witness for C8 at a concrete input: a downloaded episode with a publish
date tags fine; the iff instance holds at that episode. -/
theorem tag_writer_requires_published_witness :
    (c8Track.published = none →
      update_metadata_track (fun _ => true) "N" "A" c8Track none
        = Except.error "AttributeError: NoneType has no attribute year") ∧
    ((∃ p tags, update_metadata_track (fun _ => true) "N" "A" c8Track none
        = Except.ok (some (p, tags)))
      ↔ c8Track.published.isSome = true) :=
  tag_writer_requires_published (fun _ => true) "N" "A" c8Track none "/a.mp3" rfl rfl

/- ------------------------------------------------------------------ -/
/- Claim C9                                                            -/
/- ------------------------------------------------------------------ -/

/-- A playlist batch whose state already carries an escaped exception does
nothing further. -/
theorem gp_foldl_frozen (reSub : String → String → String → String)
    (d : DB) (dir : String) (ps : Option (String × String)) :
    ∀ (L : List CastRow) (outs : List (String × String)) (e : String),
      L.foldl (gpStep reSub d dir ps) (outs, some e) = (outs, some e) := by
  intro L
  induction L with
  | nil => intro outs e; rfl
  | cons c L ih =>
    intro outs e
    have hstep : gpStep reSub d dir ps (outs, some e) c = (outs, some e) := by
      simp [gpStep]
    rw [List.foldl_cons, hstep]
    exact ih outs e

/-- Each playlist step emits at most one playlist file. -/
theorem gp_foldl_len (reSub : String → String → String → String)
    (d : DB) (dir : String) (ps : Option (String × String)) :
    ∀ (L : List CastRow) (st : List (String × String) × Option String),
      (L.foldl (gpStep reSub d dir ps) st).1.length ≤ st.1.length + L.length := by
  intro L
  induction L with
  | nil => intro st; simp
  | cons c L ih =>
    intro st
    rw [List.foldl_cons]
    have hstep : (gpStep reSub d dir ps st c).1.length ≤ st.1.length + 1 := by
      unfold gpStep
      cases hst : st.2 with
      | some e => dsimp only; omega
      | none =>
        cases hc : c.name with
        | none => dsimp only; omega
        | some nm =>
          dsimp only
          cases hd : dump_to_m3u reSub (tracksOf d.tracks c.id) true ps with
          | ok content =>
            simp only [List.length_append, List.length_cons, List.length_nil]
            omega
          | error e => dsimp only; omega
    calc (L.foldl (gpStep reSub d dir ps) (gpStep reSub d dir ps st c)).1.length
        ≤ (gpStep reSub d dir ps st c).1.length + L.length := ih _
      _ ≤ st.1.length + 1 + L.length := by omega
      _ ≤ st.1.length + (c :: L).length := by simp only [List.length_cons]; omega

/-- Claim C9: for every podcast added but never refreshed (name still
null), generate_playlists fails while sanitising the podcast name — re.sub
receives a None subject and raises TypeError — and the whole playlist batch
aborts: the run ends with an escaped exception, and at most the podcasts
strictly before the failing one have had a playlist emitted (in particular
no playlist is emitted for the null-named podcast or anything after it). -/
theorem generate_playlists_aborts_on_null_name (reSub : String → String → String → String)
    (d : DB) (dir : String) (ps : Option (String × String))
    (l1 : List CastRow) (c : CastRow) (l2 : List CastRow)
    (hsplit : d.casts = l1 ++ c :: l2) (hname : c.name = none) :
    ((generate_playlists_loop reSub d dir ps).2).isSome = true ∧
    (generate_playlists_loop reSub d dir ps).1.length ≤ l1.length := by
  unfold generate_playlists_loop
  rw [hsplit, List.foldl_append, List.foldl_cons]
  set st1 := l1.foldl (gpStep reSub d dir ps) ([], none) with hst1def
  have hlen1 : st1.1.length ≤ l1.length := by
    have hh := gp_foldl_len reSub d dir ps l1 ([], none)
    simpa using hh
  cases hse : st1.2 with
  | some e =>
    have hpair : st1 = (st1.1, some e) := by
      conv_lhs => rw [← Prod.mk.eta (p := st1)]
      rw [hse]
    have hstep : gpStep reSub d dir ps st1 c = (st1.1, some e) := by
      rw [hpair]
      simp [gpStep]
    rw [hstep, gp_foldl_frozen reSub d dir ps l2 st1.1 e]
    exact ⟨rfl, hlen1⟩
  | none =>
    have hpair : st1 = (st1.1, none) := by
      conv_lhs => rw [← Prod.mk.eta (p := st1)]
      rw [hse]
    have hstep : gpStep reSub d dir ps st1 c
        = (st1.1, some "TypeError: re.sub expected string, got None") := by
      rw [hpair]
      simp [gpStep, hname]
    rw [hstep, gp_foldl_frozen reSub d dir ps l2 st1.1 _]
    exact ⟨rfl, hlen1⟩

/-- Witness for C9 at a concrete input: one just-added podcast (name null);
the batch aborts and emits no playlist. -/
theorem generate_playlists_aborts_witness :
    ((generate_playlists_loop (fun _ _ s => s)
        ⟨[⟨1, "u", none, none⟩], []⟩ "/p" none).2).isSome = true ∧
    (generate_playlists_loop (fun _ _ s => s)
        ⟨[⟨1, "u", none, none⟩], []⟩ "/p" none).1.length ≤ ([] : List CastRow).length :=
  generate_playlists_aborts_on_null_name (fun _ _ s => s)
    ⟨[⟨1, "u", none, none⟩], []⟩ "/p" none [] ⟨1, "u", none, none⟩ [] rfl rfl

/- ------------------------------------------------------------------ -/
/- Claim C10                                                           -/
/- ------------------------------------------------------------------ -/

/-- Claim C10: the download file name depends only on the podcast id and
the last slash-separated segment of the episode GUID, so it is not
injective: the distinct GUIDs a/x and b/x of the same podcast map to the
same local file path, whatever the directory and podcast id. -/
theorem download_file_name_not_injective (dir : String) (pid : Nat) :
    ∃ g1 g2 : String, g1 ≠ g2 ∧ downloadFileName dir pid g1 = downloadFileName dir pid g2 := by
  refine ⟨"a/x", "b/x", by decide, ?_⟩
  unfold downloadFileName
  have h : lastSegment "a/x" = lastSegment "b/x" := by decide
  rw [h]

end PodcastBot
